import Mathlib

/-
  Verification development for the usd_rate_bot repository.

  The Python sources under src/bot are shallowly embedded below:
  network attempts and the database are passed in explicitly, float
  arithmetic is modelled with the rationals, and the dynamic attribute
  lookup on the Database object is modelled by a list of method names
  (a call to a name not in the list is an AttributeError).
-/

namespace UsdRateBot

/-! ## String and number helpers -/

/-- Folds a list of decimal digit characters into the natural number they denote. -/
def digitsToNat (l : List Char) : Nat :=
  l.foldl (fun a c => a * 10 + (c.toNat - 48)) 0

/-- Model of the Python float constructor restricted to the decimal literals the
CBR feeds produce: an optional sign, an integer part and an optional fractional
part separated by a dot. Returns none where float would raise ValueError. -/
def pyFloat? (s : String) : Option ℚ :=
  let cs := s.toList
  let isNeg : Bool := match cs with
    | c :: _ => c == '-'
    | [] => false
  let cs := match cs with
    | c :: rest => if c = '-' ∨ c = '+' then rest else cs
    | [] => cs
  let intPart := cs.takeWhile Char.isDigit
  let rest := cs.dropWhile Char.isDigit
  match rest with
  | [] =>
      if intPart.isEmpty then none
      else
        let mag : ℚ := (digitsToNat intPart : ℚ)
        some (if isNeg then -mag else mag)
  | '.' :: fracCs =>
      let fracPart := fracCs.takeWhile Char.isDigit
      let rest2 := fracCs.dropWhile Char.isDigit
      if rest2.isEmpty && !(intPart.isEmpty && fracPart.isEmpty) then
        let mag : ℚ := (digitsToNat intPart : ℚ)
          + (digitsToNat fracPart : ℚ) / (10 ^ fracPart.length)
        some (if isNeg then -mag else mag)
      else none
  | _ => none

/-- Model of str.replace for the comma-to-dot normalization used on XML
numbers, character by character. -/
def replaceCommaDot (s : String) : String :=
  ⟨s.data.map (fun c => if c = ',' then '.' else c)⟩

/-- Model of str.upper as used on currency codes. -/
def pyUpper (s : String) : String :=
  ⟨s.data.map Char.toUpper⟩

/-- Model of str.lower as used on city cache keys. -/
def pyLower (s : String) : String :=
  ⟨s.data.map Char.toLower⟩

/-- Splits a character list at every dot, keeping empty pieces, as str.split
with a dot separator does. -/
def splitOnDot : List Char → List (List Char)
  | [] => [[]]
  | c :: rest =>
      let r := splitOnDot rest
      if c = '.' then [] :: r
      else match r with
        | [] => [[c]]
        | h :: t => (c :: h) :: t

/-- Model of the helper in scheduler.py turning DD.MM.YYYY into YYYY-MM-DD;
any string that does not split into exactly three dot-separated parts is
returned unchanged (the except branch). -/
def parse_xml_date (xml_date : String) : String :=
  match (splitOnDot xml_date.data).map (fun l => (⟨l⟩ : String)) with
  | [d, m, y] => y ++ "-" ++ m ++ "-" ++ d
  | _ => xml_date

/-- Model of the JSON date post-processing in fetch_cbr_rate:
raw_date.split at the first T when a T occurs, otherwise raw_date. -/
def jsonDateStr (raw : String) : String :=
  if raw.data.contains 'T' then ⟨raw.data.takeWhile (· ≠ 'T')⟩ else raw

/-- Model of the Python expression (findtext result or default): None and the
empty string are falsy, so both are replaced by the default. -/
def textOr (o : Option String) (d : String) : String :=
  match o with
  | some s => if s = "" then d else s
  | none => d

/-! ## Payload shapes (section 6 wire shapes of the spec, as the code reads them) -/

/-- One currency entry of the JSON feed: Value is required, Nominal optional. -/
structure JsonInfo where
  Value : ℚ
  Nominal : Option ℚ
deriving DecidableEq, Repr

/-- The JSON feed payload as fetch_cbr_rate reads it: a Date string and the
Valute mapping from currency code to entry. -/
structure JsonPayload where
  Date : String
  Valute : List (String × JsonInfo)
deriving DecidableEq, Repr

/-- One Valute element of the XML feed; findtext yields none when the child
element is absent. -/
structure XmlValute where
  CharCode : Option String
  Nominal : Option String
  Value : Option String
deriving DecidableEq, Repr

/-- The parsed XML document: the root Date attribute and the Valute elements. -/
structure XmlRoot where
  Date : Option String
  Valute : List XmlValute
deriving DecidableEq, Repr

/-! ## Retry loop shared by the four fetch helpers -/

/-- Model of the for-range-3 retry loop of the fetch helpers. Each list element
is one network attempt: none is an exception (network error, timeout or
malformed payload), some p a successfully parsed payload. The loop returns the
first success and the list of backoff sleeps performed; a sleep follows every
failed attempt, including the last one. -/
def retryLoop {α : Type} : Nat → List (Option α) → Option α × List Nat
  | _, [] => (none, [])
  | backoff, attempt :: rest =>
      match attempt with
      | some a => (some a, [])
      | none =>
          let r := retryLoop (2 * backoff) rest
          (r.1, backoff :: r.2)

/-- Runs a source helper: at most three attempts, initial backoff one second. -/
def runSource {α : Type} (attempts : List (Option α)) : Option α × List Nat :=
  retryLoop 1 (attempts.take 3)

/-! ## The database object as fetch_cbr_rate uses it -/

/-- Python exception classes that the embedded code can raise. -/
inductive PyError
  | runtimeError
  | attributeError
  | valueError
deriving DecidableEq, Repr

/-- The database object passed to fetch_cbr_rate: the set of method names the
object actually defines (attribute lookup on any other name raises
AttributeError) and the value its get_previous_rate method would return. -/
structure RateDb where
  methods : List String
  prevRate : String → Option ℚ

/-- Observable database interactions of one fetch_cbr_rate call. -/
inductive DbEvent
  | getPreviousRate (currency : String) (result : Option ℚ)
  | saveRate (currency : String) (rate : ℚ) (dateStr : String)
deriving DecidableEq, Repr

/-- The dictionary fetch_cbr_rate returns on success. -/
structure FetchResult where
  rate : ℚ
  date : String
  stale : Bool
  change_arrow : String
deriving DecidableEq, Repr

/-- Result of one fetch_cbr_rate call: the returned value or raised exception,
the database calls in order, and the sources consulted in order (1 to 4). -/
structure FetchTrace where
  result : Except PyError FetchResult
  dbEvents : List DbEvent
  sourcesTried : List Nat

/-! ## fetch_cbr_rate -/

/-- Model of the nested helper choosing the trend arrow. -/
def _calculate_arrow (current_rate previous_rate : ℚ) : String :=
  if current_rate > previous_rate then "↑"
  else if current_rate < previous_rate then "↓"
  else "→"

/-- The rate expression used in all four source branches:
value / nominal if nominal else value. -/
def normalizeRate (value nominal : ℚ) : ℚ :=
  if nominal ≠ 0 then value / nominal else value

/-- Arrow selection as written in each winning branch: the literal flat arrow
when no previous rate is cached, otherwise _calculate_arrow. -/
def arrowFor (rate : ℚ) (previous : Option ℚ) : String :=
  match previous with
  | none => "→"
  | some p => _calculate_arrow rate p

/-- The tail shared by every winning branch of fetch_cbr_rate: read the
previously cached rate, pick the arrow, save the new rate, return the result
dictionary. Attribute lookup of a missing database method raises. -/
def winBranch (db : RateDb) (key : String) (rate : ℚ) (date_str : String)
    (stale : Bool) : Except PyError FetchResult × List DbEvent :=
  if "get_previous_rate" ∈ db.methods then
    let previous_rate := db.prevRate key
    let change_arrow := arrowFor rate previous_rate
    if "save_rate" ∈ db.methods then
      (Except.ok ⟨rate, date_str, stale, change_arrow⟩,
        [DbEvent.getPreviousRate key previous_rate,
         DbEvent.saveRate key rate date_str])
    else (Except.error PyError.attributeError,
      [DbEvent.getPreviousRate key previous_rate])
  else (Except.error PyError.attributeError, [])

/-- Processing of one JSON source outcome: none when the source is skipped
(helper exhausted its retries, or the requested currency is absent from the
Valute mapping), otherwise the branch outcome. -/
def jsonBranch (db : RateDb) (key : String) (stale : Bool)
    (odata : Option JsonPayload) :
    Option (Except PyError FetchResult × List DbEvent) :=
  match odata with
  | none => none
  | some data =>
      match List.lookup key data.Valute with
      | none => none
      | some info =>
          let value := info.Value
          let nominal := info.Nominal.getD 1
          let rate := normalizeRate value nominal
          let date_str := jsonDateStr data.Date
          some (winBranch db key rate date_str stale)

/-- Processing of one XML source outcome: none when the helper exhausted its
retries or no Valute element carries the requested currency code; a matching
element whose Nominal or Value text does not parse raises ValueError. -/
def xmlBranch (db : RateDb) (key : String) (stale : Bool)
    (oroot : Option XmlRoot) :
    Option (Except PyError FetchResult × List DbEvent) :=
  match oroot with
  | none => none
  | some root =>
      let date_str := match root.Date with
        | some s => if s = "" then "" else parse_xml_date s
        | none => ""
      match root.Valute.find? (fun v => v.CharCode == some key) with
      | none => none
      | some v =>
          match pyFloat? (replaceCommaDot (textOr v.Nominal "1")) with
          | none => some (Except.error PyError.valueError, [])
          | some nominal =>
              match pyFloat? (replaceCommaDot (textOr v.Value "0")) with
              | none => some (Except.error PyError.valueError, [])
              | some value =>
                  let rate := normalizeRate value nominal
                  some (winBranch db key rate date_str stale)

/-- The network environment of one fetch_cbr_rate call: the outcomes of the
successive attempts each of the four source helpers would observe. -/
structure FetchEnv where
  jsonToday : List (Option JsonPayload)
  jsonArchive : List (Option JsonPayload)
  xmlToday : List (Option XmlRoot)
  xmlArchive : List (Option XmlRoot)

/-- The outcome of source k (0-indexed) of the fallback chain, exactly as
fetch_cbr_rate computes it: sources 0 and 1 are the JSON feed for today and
the archive, sources 2 and 3 the XML feed for today and the archive. -/
def sourceOutcome (env : FetchEnv) (key : String) (db : RateDb) :
    Nat → Option (Except PyError FetchResult × List DbEvent)
  | 0 => jsonBranch db key false (runSource env.jsonToday).1
  | 1 => jsonBranch db key true (runSource env.jsonArchive).1
  | 2 => xmlBranch db key false (runSource env.xmlToday).1
  | 3 => xmlBranch db key true (runSource env.xmlArchive).1
  | _ => none

/-- Model of fetch_cbr_rate in scheduler.py: the four sources are consulted in
order, the first branch that produces an outcome ends the chain, and the final
RuntimeError is raised when all four fall through. -/
def fetch_cbr_rate (env : FetchEnv) (currency : String) (db : RateDb) :
    FetchTrace :=
  let key := pyUpper currency
  match jsonBranch db key false (runSource env.jsonToday).1 with
  | some (r, evs) => ⟨r, evs, [1]⟩
  | none =>
    match jsonBranch db key true (runSource env.jsonArchive).1 with
    | some (r, evs) => ⟨r, evs, [1, 2]⟩
    | none =>
      match xmlBranch db key false (runSource env.xmlToday).1 with
      | some (r, evs) => ⟨r, evs, [1, 2, 3]⟩
      | none =>
        match xmlBranch db key true (runSource env.xmlArchive).1 with
        | some (r, evs) => ⟨r, evs, [1, 2, 3, 4]⟩
        | none => ⟨Except.error PyError.runtimeError, [], [1, 2, 3, 4]⟩

/-- Model of send_daily_rate: any exception from fetch_cbr_rate is caught and
the function returns without sending; on success the fetched result is the
payload handed to message delivery (text formatting is presentation only and
is abstracted to the result record itself). -/
def send_daily_rate (env : FetchEnv) (user_id : Nat) (currency : String)
    (db : RateDb) : Option FetchResult :=
  match (fetch_cbr_rate env currency db).result with
  | Except.error _ => none
  | Except.ok res => some res

/-! ## users_settings rows and the Database query methods (db.py) -/

/-- One row of the users_settings table, as the dictionaries get_user and
get_all_with_notifications build it. -/
structure UserRow where
  user_id : Nat
  timezone_utc_offset_minutes : Option Int
  currency : Option String
  local_hour : Option Nat
  local_minute : Option Nat
  utc_hour : Option Nat
  utc_minute : Option Nat
  notification_enabled : Bool
deriving DecidableEq, Repr

/-- The users_settings table (user_id is the primary key; rows in rowid order). -/
structure UserDb where
  users : List UserRow
deriving DecidableEq, Repr

/-- Model of Database.get_user: the row with the given user_id, or none. -/
def get_user (db : UserDb) (user_id : Nat) : Option UserRow :=
  db.users.find? (fun u => u.user_id == user_id)

/-- Model of Database.get_all_with_notifications: rows with notifications
enabled and non-NULL utc_hour, utc_minute and currency. -/
def get_all_with_notifications (db : UserDb) : List UserRow :=
  db.users.filter (fun u =>
    u.notification_enabled && u.utc_hour.isSome && u.utc_minute.isSome
      && u.currency.isSome)

/-- Model of Database._ensure_user_row: inserts a fresh disabled row when the
user has none. -/
def _ensure_user_row (db : UserDb) (user_id : Nat) : UserDb :=
  if db.users.any (fun u => u.user_id == user_id) then db
  else ⟨db.users ++ [⟨user_id, none, none, none, none, none, none, false⟩]⟩

/-- Model of Database.set_notifications_enabled: UPDATE of the single matching
row after _ensure_user_row. -/
def set_notifications_enabled (db : UserDb) (user_id : Nat) (enabled : Bool) :
    UserDb :=
  let db := _ensure_user_row db user_id
  ⟨db.users.map (fun u =>
    if u.user_id == user_id then { u with notification_enabled := enabled }
    else u)⟩

/-- Model of Database.set_notification_time: UPDATE of the time fields and the
enabled flag of the single matching row after _ensure_user_row. -/
def set_notification_time (db : UserDb) (user_id : Nat)
    (local_hour local_minute utc_hour utc_minute : Nat) (enabled : Bool) :
    UserDb :=
  let db := _ensure_user_row db user_id
  ⟨db.users.map (fun u =>
    if u.user_id == user_id then
      { u with
        local_hour := some local_hour
        local_minute := some local_minute
        utc_hour := some utc_hour
        utc_minute := some utc_minute
        notification_enabled := enabled }
    else u)⟩

/-! ## NotificationScheduler (scheduler.py) -/

/-- One apscheduler cron job as _add_job_for_user creates it. -/
structure SchedJob where
  job_id : String
  utc_hour : Nat
  utc_minute : Nat
  user_id : Nat
  currency : String
deriving DecidableEq, Repr

/-- Model of scheduler.add_job with replace_existing true: any job with the
same id is dropped and the new job stored. -/
def add_job_replace (jobs : List SchedJob) (j : SchedJob) : List SchedJob :=
  jobs.filter (fun x => x.job_id != j.job_id) ++ [j]

/-- Python truthiness of the optional currency string: None and the empty
string are falsy. -/
def pyFalsyStr : Option String → Bool
  | none => true
  | some s => s == ""

/-- Model of NotificationScheduler._add_job_for_user. Both call sites guarantee
non-NULL utc_hour, utc_minute and currency, so the fallthrough arm (where the
source would raise on int of None) is unreachable from them. -/
def _add_job_for_user (user : UserRow) (jobs : List SchedJob) :
    List SchedJob :=
  match user.utc_hour, user.utc_minute, user.currency with
  | some h, some m, some c =>
      add_job_replace jobs
        ⟨"user_" ++ toString user.user_id, h, m, user.user_id, pyUpper c⟩
  | _, _, _ => jobs

/-- Model of NotificationScheduler.reschedule_for_user: remove any job with the
user id (exceptions from remove_job are swallowed, so removal is a no-op when
no such job exists), re-read the user and re-add a job unless the settings
disqualify. -/
def reschedule_for_user (db : UserDb) (user_id : Nat)
    (jobs : List SchedJob) : List SchedJob :=
  let job_id := "user_" ++ toString user_id
  let jobs := jobs.filter (fun j => j.job_id != job_id)
  match get_user db user_id with
  | none => jobs
  | some user =>
      if !user.notification_enabled || user.utc_hour.isNone
          || user.utc_minute.isNone || pyFalsyStr user.currency then jobs
      else _add_job_for_user user jobs

/-- Model of NotificationScheduler.reload_jobs: remove_all_jobs, then one
_add_job_for_user per row of get_all_with_notifications. -/
def reload_jobs (db : UserDb) : List SchedJob :=
  (get_all_with_notifications db).foldl (fun js u => _add_job_for_user u js) []

/-! ## on_time_confirm (handlers/settings.py) -/

/-- Model of the on_time_confirm handler: when the user row exists and has a
timezone offset, the chosen local time is shifted to UTC with the arithmetic of
the source and persisted through set_notification_time with enabled true;
otherwise the database is left unchanged (the handler only answers an alert). -/
def on_time_confirm (db : UserDb) (user_id : Nat) (hour minute : Nat) :
    UserDb :=
  match get_user db user_id with
  | none => db
  | some user =>
      match user.timezone_utc_offset_minutes with
      | none => db
      | some offset =>
          let local_total : Int := hour * 60 + minute
          let utc_total : Int := (local_total - offset) % (24 * 60)
          let utc_hour := utc_total / 60
          let utc_minute := utc_total % 60
          set_notification_time db user_id hour minute
            utc_hour.toNat utc_minute.toNat true

/-! ## get_city_timezone (utils_timezone.py) -/

/-- TTL of both city cache tiers, seconds. -/
def CACHE_TTL : ℚ := 86400

/-- One entry of the in-memory city cache. -/
structure CityEntry where
  lat : ℚ
  lon : ℚ
  offset : Int
  updated_at : Int
deriving DecidableEq, Repr

/-- The in-memory city cache, a dictionary keyed by lower-cased city text. -/
abbrev RamCache := List (String × CityEntry)

/-- Dictionary read of the in-memory cache. -/
def ramLookup (ram : RamCache) (key : String) : Option CityEntry :=
  List.lookup key ram

/-- Dictionary write of the in-memory cache: the new binding shadows any
previous one for the key. -/
def ramInsert (ram : RamCache) (key : String) (e : CityEntry) : RamCache :=
  (key, e) :: ram.filter (fun kv => kv.1 != key)

/-- Model of int applied to a float timestamp: truncation toward zero. -/
def pyInt (q : ℚ) : Int :=
  if 0 ≤ q then ⌊q⌋ else -⌊-q⌋

/-- The database object passed to get_city_timezone: its method names and the
row its get_cached_city method would return (lat, lon, offset, timestamp). -/
structure GeoDb where
  methods : List String
  cached : String → Option (ℚ × ℚ × Int × Int)

/-- Observable database interactions of one get_city_timezone call. -/
inductive GeoDbEvent
  | get_cached_city (key : String) (res : Option (ℚ × ℚ × Int × Int))
  | cache_city (key : String) (lat lon : ℚ) (offset : Int)
deriving DecidableEq, Repr

/-- The network environment of one get_city_timezone call: what geocode_city
would produce (none when both geocoders fail and ValueError is raised) and what
get_timezone_offset_minutes would produce (none when the lookup raises). -/
structure GeoNet where
  geocode : Option (ℚ × ℚ × String)
  tzOffset : Option Int

/-- Result of one get_city_timezone call: the returned triple or raised
exception, the in-memory cache afterwards, the database calls in order, and
how many network helpers were invoked. -/
structure GeoResult where
  result : Except PyError (ℚ × ℚ × Int)
  ram : RamCache
  dbEvents : List GeoDbEvent
  networkCalls : Nat

/-- The full API lookup tail of get_city_timezone: geocoder, timezone lookup,
then write-through to the in-memory cache and to cache_city. The in-memory
write precedes the cache_city attribute lookup, as in the source. -/
def geoFullLookup (city_key : String) (now : ℚ) (ram : RamCache) (db : GeoDb)
    (net : GeoNet) (evs : List GeoDbEvent) : GeoResult :=
  match net.geocode with
  | none => ⟨Except.error PyError.valueError, ram, evs, 1⟩
  | some (lat, lon, _) =>
      match net.tzOffset with
      | none => ⟨Except.error PyError.valueError, ram, evs, 2⟩
      | some offset =>
          let ram2 := ramInsert ram city_key ⟨lat, lon, offset, pyInt now⟩
          if "cache_city" ∈ db.methods then
            ⟨Except.ok (lat, lon, offset), ram2,
              evs ++ [GeoDbEvent.cache_city city_key lat lon offset], 2⟩
          else ⟨Except.error PyError.attributeError, ram2, evs, 2⟩

/-- The in-memory tier check of get_city_timezone: a fresh entry for the key,
none when the key is absent or its entry has outlived the TTL (a stale entry
falls through without short-circuiting). -/
def ramFresh (ram : RamCache) (key : String) (now : ℚ) : Option CityEntry :=
  match ramLookup ram key with
  | some c => if now - (c.updated_at : ℚ) < CACHE_TTL then some c else none
  | none => none

/-- Model of get_city_timezone: the in-memory cache is consulted first, then
the persistent cache via get_cached_city (a fresh row backfills the in-memory
tier), and only then the network helpers. -/
def get_city_timezone (city : String) (now : ℚ) (ram : RamCache) (db : GeoDb)
    (net : GeoNet) : GeoResult :=
  let city_key := pyLower city
  match ramFresh ram city_key now with
  | some c => ⟨Except.ok (c.lat, c.lon, c.offset), ram, [], 0⟩
  | none =>
      if "get_cached_city" ∈ db.methods then
        let row := db.cached city_key
        let ev := GeoDbEvent.get_cached_city city_key row
        match row with
        | some (lat, lon, offset, ts) =>
            if now - (ts : ℚ) < CACHE_TTL then
              ⟨Except.ok (lat, lon, offset),
                ramInsert ram city_key ⟨lat, lon, offset, ts⟩, [ev], 0⟩
            else geoFullLookup city_key now ram db net [ev]
        | none => geoFullLookup city_key now ram db net [ev]
      else ⟨Except.error PyError.attributeError, ram, [], 0⟩

/-! ## The methods the Database class of db.py actually defines -/

/-- The method names defined by the Database class in db.py. -/
def databaseMethods : List String :=
  ["connect", "init_db", "_ensure_user_row", "set_timezone", "set_currency",
   "set_notification_time", "set_notifications_enabled", "get_user",
   "get_all_with_notifications", "close"]

/-- The Database object of this repository, as fetch_cbr_rate receives it: it
defines only the methods of db.py, so its get_previous_rate behavior is
irrelevant (the attribute lookup raises first). -/
def cbrDb : RateDb :=
  ⟨databaseMethods, fun _ => none⟩

/-- The Database object of this repository, as get_city_timezone receives it. -/
def cbrGeoDb : GeoDb :=
  ⟨databaseMethods, fun _ => none⟩

/-! ## Derived observables and spec-side definitions -/

/-- Nominal handling as the spec words it: the nominal is treated as one when
it is absent or zero. Used only to compare the code expression against the
wording of the spec. -/
def specNominal : Option ℚ → ℚ
  | none => 1
  | some n => if n = 0 then 1 else n

/-- The qualification condition of reschedule_for_user, read off its guard:
the user row exists, notifications are enabled, both UTC fields are set and
the currency is set and non-empty. -/
def qualifies (db : UserDb) (user_id : Nat) : Bool :=
  match get_user db user_id with
  | none => false
  | some u =>
      u.notification_enabled && u.utc_hour.isSome && u.utc_minute.isSome
        && !(pyFalsyStr u.currency)

/-- Number of live jobs carrying the trigger id of the given user. -/
def countJobsFor (user_id : Nat) (jobs : List SchedJob) : Nat :=
  (jobs.filter (fun j => j.job_id == "user_" ++ toString user_id)).length

/-! ## Concrete fixtures used by witnesses and counterexamples -/

/-- A database object implementing the interface fetch_cbr_rate consumes, with
a cached previous rate of 50 for every currency. -/
def goodDb : RateDb :=
  ⟨["get_previous_rate", "save_rate"], fun _ => some 50⟩

/-- A database object implementing the fetch interface with an empty cache. -/
def emptyDb : RateDb :=
  ⟨["get_previous_rate", "save_rate"], fun _ => none⟩

/-- A JSON payload carrying USD with value 100 and nominal 0, which the code
treats as nominal 1, so the normalized rate is 100. -/
def jsonUSD : JsonPayload :=
  ⟨"2024-02-01T11:30:00", [("USD", ⟨100, some 0⟩)]⟩

/-- A JSON payload carrying only EUR, so USD is absent. -/
def jsonNoUSD : JsonPayload :=
  ⟨"2024-02-01T11:30:00", [("EUR", ⟨100, some 10⟩)]⟩

/-- An XML document carrying USD with nominal text 0, treated as nominal 1,
and value text 100, so the normalized rate is 100. -/
def xmlUSD : XmlRoot :=
  ⟨some "01.02.2024", [⟨some "USD", some "0", some "100"⟩]⟩

/-- Environment where both JSON sources exhaust their retries and the XML
today source succeeds on its first attempt. -/
def envXmlWins : FetchEnv :=
  ⟨[none, none, none], [none, none, none], [some xmlUSD], [none, none, none]⟩

/-- Environment where only the JSON archive source succeeds. -/
def envJsonArchiveWins : FetchEnv :=
  ⟨[none, none, none], [some jsonUSD], [none, none, none], [none, none, none]⟩

/-- Environment where every attempt of every source fails. -/
def envAllFail : FetchEnv :=
  ⟨[none, none, none], [none, none, none], [none, none, none],
   [none, none, none]⟩

/-- Environment where the first attempt of the JSON today source returns a
well-formed payload lacking USD while its second and third attempts would
return a payload carrying USD, and every other source fails. -/
def envAbsentThenPresent : FetchEnv :=
  ⟨[some jsonNoUSD, some jsonUSD, some jsonUSD], [none, none, none],
   [none, none, none], [none, none, none]⟩

/-- A one-row users_settings table with a fully configured, enabled user 7. -/
def dbUser7 : UserDb :=
  ⟨[⟨7, some 180, some "usd", some 9, some 0, some 6, some 0, true⟩]⟩

/-- A one-row users_settings table where user 1 has only a timezone set. -/
def dbUser1 : UserDb :=
  ⟨[⟨1, some 180, some "USD", none, none, none, none, false⟩]⟩

/-- A geocode database implementing the cache interface with an empty cache. -/
def geoDbEmpty : GeoDb :=
  ⟨["get_cached_city", "cache_city"], fun _ => none⟩

/-- A network environment where geocoding and the timezone lookup succeed. -/
def geoNetOk : GeoNet :=
  ⟨some (1, 2, "Moscow"), some 180⟩

/-- A network environment where both geocoders fail. -/
def geoNetFail : GeoNet :=
  ⟨none, none⟩

/-! ## Helper lemmas about the fetch chain -/

theorem winBranch_ok {db : RateDb} {key : String} {rate : ℚ} {date_str : String}
    {st : Bool} {res : FetchResult} {evs : List DbEvent}
    (h : winBranch db key rate date_str st = (Except.ok res, evs)) :
    res = ⟨rate, date_str, st, arrowFor rate (db.prevRate key)⟩ ∧
    evs = [DbEvent.getPreviousRate key (db.prevRate key),
           DbEvent.saveRate key rate date_str] ∧
    "get_previous_rate" ∈ db.methods ∧ "save_rate" ∈ db.methods := by
  by_cases hm1 : "get_previous_rate" ∈ db.methods
  · by_cases hm2 : "save_rate" ∈ db.methods
    · simp only [winBranch, if_pos hm1, if_pos hm2, Prod.mk.injEq,
        Except.ok.injEq] at h
      exact ⟨h.1.symm, h.2.symm, hm1, hm2⟩
    · simp only [winBranch, if_pos hm1, if_neg hm2, Prod.mk.injEq] at h
      exact absurd h.1 (by simp)
  · simp only [winBranch, if_neg hm1, Prod.mk.injEq] at h
    exact absurd h.1 (by simp)

theorem winBranch_no_runtime {db : RateDb} {key : String} {rate : ℚ}
    {date_str : String} {st : Bool} {r : Except PyError FetchResult}
    {evs : List DbEvent} (h : winBranch db key rate date_str st = (r, evs)) :
    r ≠ Except.error PyError.runtimeError := by
  by_cases hm1 : "get_previous_rate" ∈ db.methods
  · by_cases hm2 : "save_rate" ∈ db.methods
    · simp only [winBranch, if_pos hm1, if_pos hm2, Prod.mk.injEq] at h
      rw [← h.1]; simp
    · simp only [winBranch, if_pos hm1, if_neg hm2, Prod.mk.injEq] at h
      rw [← h.1]; simp
  · simp only [winBranch, if_neg hm1, Prod.mk.injEq] at h
    rw [← h.1]; simp

theorem jsonBranch_ok {db : RateDb} {key : String} {st : Bool}
    {od : Option JsonPayload} {res : FetchResult} {evs : List DbEvent}
    (h : jsonBranch db key st od = some (Except.ok res, evs)) :
    res.stale = st ∧
    res.change_arrow = arrowFor res.rate (db.prevRate key) ∧
    evs = [DbEvent.getPreviousRate key (db.prevRate key),
           DbEvent.saveRate key res.rate res.date] ∧
    "get_previous_rate" ∈ db.methods ∧ "save_rate" ∈ db.methods := by
  match od with
  | none => simp [jsonBranch] at h
  | some data =>
      simp only [jsonBranch] at h
      match hl : List.lookup key data.Valute with
      | none => simp only [hl] at h; simp at h
      | some info =>
          simp only [hl] at h
          simp only [Option.some.injEq] at h
          obtain ⟨h1, h2, hm1, hm2⟩ := winBranch_ok h
          subst h1
          exact ⟨rfl, rfl, h2, hm1, hm2⟩

theorem jsonBranch_no_runtime {db : RateDb} {key : String} {st : Bool}
    {od : Option JsonPayload} {r : Except PyError FetchResult}
    {evs : List DbEvent} (h : jsonBranch db key st od = some (r, evs)) :
    r ≠ Except.error PyError.runtimeError := by
  match od with
  | none => simp [jsonBranch] at h
  | some data =>
      simp only [jsonBranch] at h
      match hl : List.lookup key data.Valute with
      | none => simp only [hl] at h; simp at h
      | some info =>
          simp only [hl] at h
          simp only [Option.some.injEq] at h
          exact winBranch_no_runtime h

theorem xmlBranch_ok {db : RateDb} {key : String} {st : Bool}
    {od : Option XmlRoot} {res : FetchResult} {evs : List DbEvent}
    (h : xmlBranch db key st od = some (Except.ok res, evs)) :
    res.stale = st ∧
    res.change_arrow = arrowFor res.rate (db.prevRate key) ∧
    evs = [DbEvent.getPreviousRate key (db.prevRate key),
           DbEvent.saveRate key res.rate res.date] ∧
    "get_previous_rate" ∈ db.methods ∧ "save_rate" ∈ db.methods := by
  match od with
  | none => simp [xmlBranch] at h
  | some root =>
      simp only [xmlBranch] at h
      match hf : root.Valute.find? (fun v => v.CharCode == some key) with
      | none => simp only [hf] at h; simp at h
      | some v =>
          simp only [hf] at h
          match hn : pyFloat? (replaceCommaDot (textOr v.Nominal "1")) with
          | none => simp only [hn] at h; simp at h
          | some nominal =>
              simp only [hn] at h
              match hv : pyFloat? (replaceCommaDot (textOr v.Value "0")) with
              | none => simp only [hv] at h; simp at h
              | some value =>
                  simp only [hv] at h
                  simp only [Option.some.injEq] at h
                  obtain ⟨h1, h2, hm1, hm2⟩ := winBranch_ok h
                  subst h1
                  exact ⟨rfl, rfl, h2, hm1, hm2⟩

theorem xmlBranch_no_runtime {db : RateDb} {key : String} {st : Bool}
    {od : Option XmlRoot} {r : Except PyError FetchResult}
    {evs : List DbEvent} (h : xmlBranch db key st od = some (r, evs)) :
    r ≠ Except.error PyError.runtimeError := by
  match od with
  | none => simp [xmlBranch] at h
  | some root =>
      simp only [xmlBranch] at h
      match hf : root.Valute.find? (fun v => v.CharCode == some key) with
      | none => simp only [hf] at h; simp at h
      | some v =>
          simp only [hf] at h
          match hn : pyFloat? (replaceCommaDot (textOr v.Nominal "1")) with
          | none =>
              simp only [hn] at h
              simp only [Option.some.injEq, Prod.mk.injEq] at h
              rw [← h.1]; simp
          | some nominal =>
              simp only [hn] at h
              match hv : pyFloat? (replaceCommaDot (textOr v.Value "0")) with
              | none =>
                  simp only [hv] at h
                  simp only [Option.some.injEq, Prod.mk.injEq] at h
                  rw [← h.1]; simp
              | some value =>
                  simp only [hv] at h
                  simp only [Option.some.injEq] at h
                  exact winBranch_no_runtime h

theorem sourceOutcome_ok {env : FetchEnv} {key : String} {db : RateDb}
    {k : Nat} {res : FetchResult} {evs : List DbEvent}
    (h : sourceOutcome env key db k = some (Except.ok res, evs)) :
    res.stale = (k == 1 || k == 3) ∧
    res.change_arrow = arrowFor res.rate (db.prevRate key) ∧
    evs = [DbEvent.getPreviousRate key (db.prevRate key),
           DbEvent.saveRate key res.rate res.date] ∧
    "get_previous_rate" ∈ db.methods ∧ "save_rate" ∈ db.methods := by
  match k with
  | 0 => exact jsonBranch_ok h
  | 1 => exact jsonBranch_ok h
  | 2 => exact xmlBranch_ok h
  | 3 => exact xmlBranch_ok h
  | n + 4 => simp [sourceOutcome] at h

theorem sourceOutcome_no_runtime {env : FetchEnv} {key : String} {db : RateDb}
    {k : Nat} {r : Except PyError FetchResult} {evs : List DbEvent}
    (h : sourceOutcome env key db k = some (r, evs)) :
    r ≠ Except.error PyError.runtimeError := by
  match k with
  | 0 => exact jsonBranch_no_runtime h
  | 1 => exact jsonBranch_no_runtime h
  | 2 => exact xmlBranch_no_runtime h
  | 3 => exact xmlBranch_no_runtime h
  | n + 4 => simp [sourceOutcome] at h

theorem fetch_cases (env : FetchEnv) (currency : String) (db : RateDb) :
    (∃ k, k < 4 ∧
      (∀ j, j < k → sourceOutcome env (pyUpper currency) db j = none) ∧
      ∃ r evs, sourceOutcome env (pyUpper currency) db k = some (r, evs) ∧
        fetch_cbr_rate env currency db =
          ⟨r, evs, (List.range (k + 1)).map (· + 1)⟩) ∨
    ((∀ j, j < 4 → sourceOutcome env (pyUpper currency) db j = none) ∧
      fetch_cbr_rate env currency db =
        ⟨Except.error PyError.runtimeError, [], [1, 2, 3, 4]⟩) := by
  rcases h0 : jsonBranch db (pyUpper currency) false (runSource env.jsonToday).1
    with _ | ⟨r0, e0⟩
  · rcases h1 : jsonBranch db (pyUpper currency) true
      (runSource env.jsonArchive).1 with _ | ⟨r1, e1⟩
    · rcases h2 : xmlBranch db (pyUpper currency) false
        (runSource env.xmlToday).1 with _ | ⟨r2, e2⟩
      · rcases h3 : xmlBranch db (pyUpper currency) true
          (runSource env.xmlArchive).1 with _ | ⟨r3, e3⟩
        · right
          refine ⟨?_, ?_⟩
          · intro j hj
            interval_cases j
            · exact h0
            · exact h1
            · exact h2
            · exact h3
          · simp [fetch_cbr_rate, h0, h1, h2, h3]
        · left
          refine ⟨3, by norm_num, ?_, r3, e3, h3, ?_⟩
          · intro j hj
            interval_cases j
            · exact h0
            · exact h1
            · exact h2
          · simp [fetch_cbr_rate, h0, h1, h2, h3, List.range_succ]
      · left
        refine ⟨2, by norm_num, ?_, r2, e2, h2, ?_⟩
        · intro j hj
          interval_cases j
          · exact h0
          · exact h1
        · simp [fetch_cbr_rate, h0, h1, h2, List.range_succ]
    · left
      refine ⟨1, by norm_num, ?_, r1, e1, h1, ?_⟩
      · intro j hj
        interval_cases j
        exact h0
      · simp [fetch_cbr_rate, h0, h1, List.range_succ]
  · left
    refine ⟨0, by norm_num, ?_, r0, e0, h0, ?_⟩
    · intro j hj
      exact absurd hj (Nat.not_lt_zero j)
    · simp [fetch_cbr_rate, h0, List.range_succ]

theorem fetch_ok_shape {env : FetchEnv} {currency : String} {db : RateDb}
    {res : FetchResult}
    (h : (fetch_cbr_rate env currency db).result = Except.ok res) :
    (fetch_cbr_rate env currency db).dbEvents =
      [DbEvent.getPreviousRate (pyUpper currency)
        (db.prevRate (pyUpper currency)),
       DbEvent.saveRate (pyUpper currency) res.rate res.date] ∧
    res.change_arrow = arrowFor res.rate (db.prevRate (pyUpper currency)) ∧
    "get_previous_rate" ∈ db.methods ∧ "save_rate" ∈ db.methods := by
  rcases fetch_cases env currency db with
    ⟨k, hk, hprev, r, evs, hout, heq⟩ | ⟨hall, heq⟩
  · rw [heq] at h
    simp only at h
    subst h
    obtain ⟨_, h2, h3, hm1, hm2⟩ := sourceOutcome_ok hout
    rw [heq]
    exact ⟨h3, h2, hm1, hm2⟩
  · rw [heq] at h
    simp at h

/-! ## Claim theorems -/

/-- C1: fetch_cbr_rate tries the four sources in the order JSON-today,
JSON-archive, XML-today, XML-archive; when the first k sources fail to yield
the currency and source k+1 yields a valid rate, exactly sources 1 to k+1 are
consulted in that order, the returned value is that winning outcome, and the
stale flag is true iff the winner is source 2 or source 4 (0-indexed 1 or 3). -/
theorem fetch_fallback_chain_order (env : FetchEnv) (currency : String)
    (db : RateDb) (k : Nat) (res : FetchResult) (evs : List DbEvent)
    (hk : k < 4)
    (hprev : ∀ j, j < k → sourceOutcome env (pyUpper currency) db j = none)
    (hwin : sourceOutcome env (pyUpper currency) db k
      = some (Except.ok res, evs)) :
    (fetch_cbr_rate env currency db).result = Except.ok res ∧
    (fetch_cbr_rate env currency db).sourcesTried
      = (List.range (k + 1)).map (· + 1) ∧
    (res.stale = true ↔ (k = 1 ∨ k = 3)) := by
  have hstale := (sourceOutcome_ok hwin).1
  rcases fetch_cases env currency db with
    ⟨k2, hk2, hprev2, r, evs2, hout2, heq⟩ | ⟨hall, heq⟩
  · have hkk : k = k2 := by
      by_contra hne
      rcases Nat.lt_or_ge k k2 with hlt | hge
      · rw [hprev2 k hlt] at hwin
        exact absurd hwin (by simp)
      · have hlt2 : k2 < k := lt_of_le_of_ne hge (Ne.symm hne)
        rw [hprev k2 hlt2] at hout2
        exact absurd hout2 (by simp)
    subst hkk
    rw [hwin] at hout2
    simp only [Option.some.injEq, Prod.mk.injEq] at hout2
    obtain ⟨hr, hevs⟩ := hout2
    rw [heq]
    refine ⟨hr.symm, rfl, ?_⟩
    rw [hstale]
    constructor
    · intro hb
      simpa using hb
    · rintro (rfl | rfl) <;> rfl
  · rw [hall k hk] at hwin
    exact absurd hwin (by simp)

/-- C1 witness: with both JSON sources failing every attempt and the XML today
source succeeding, the result is the XML rate, sources 1 to 3 are consulted,
and the result is not stale. -/
theorem fetch_fallback_chain_order_witness :
    (fetch_cbr_rate envXmlWins "USD" goodDb).result
      = Except.ok ⟨100, "2024-02-01", false, "↑"⟩ ∧
    (fetch_cbr_rate envXmlWins "USD" goodDb).sourcesTried
      = (List.range 3).map (· + 1) ∧
    ((⟨100, "2024-02-01", false, "↑"⟩ : FetchResult).stale = true
      ↔ (2 = 1 ∨ 2 = 3)) :=
  fetch_fallback_chain_order envXmlWins "USD" goodDb 2
    ⟨100, "2024-02-01", false, "↑"⟩
    [DbEvent.getPreviousRate "USD" (some 50),
     DbEvent.saveRate "USD" 100 "2024-02-01"]
    (by norm_num)
    (by intro j hj; interval_cases j <;> rfl)
    rfl

/-- C2: on every successful fetch_cbr_rate call the database interaction is
exactly a read of the previously cached rate followed by the write of the new
rate (read-then-write ordering), and the arrow is the up arrow iff the new
normalized rate exceeds the previous one, the down arrow iff it is below it,
and the flat arrow iff they are equal or no previous record exists. -/
theorem fetch_trend_arrow (env : FetchEnv) (currency : String) (db : RateDb)
    (res : FetchResult)
    (h : (fetch_cbr_rate env currency db).result = Except.ok res) :
    (fetch_cbr_rate env currency db).dbEvents =
      [DbEvent.getPreviousRate (pyUpper currency)
        (db.prevRate (pyUpper currency)),
       DbEvent.saveRate (pyUpper currency) res.rate res.date] ∧
    (db.prevRate (pyUpper currency) = none → res.change_arrow = "→") ∧
    (∀ p, db.prevRate (pyUpper currency) = some p →
      ((res.change_arrow = "↑" ↔ res.rate > p) ∧
       (res.change_arrow = "↓" ↔ res.rate < p) ∧
       (res.change_arrow = "→" ↔ res.rate = p))) := by
  obtain ⟨hev, harrow, _, _⟩ := fetch_ok_shape h
  refine ⟨hev, ?_, ?_⟩
  · intro hnone
    rw [harrow, hnone]
    rfl
  · intro p hp
    rw [harrow, hp]
    simp only [arrowFor, _calculate_arrow]
    rcases lt_trichotomy res.rate p with hlt | heqq | hgt
    · rw [if_neg (by exact not_lt_of_lt hlt), if_pos hlt]
      refine ⟨⟨fun hs => absurd hs (by decide), fun hs => absurd hs
        (not_lt_of_lt hlt)⟩, ⟨fun _ => hlt, fun _ => rfl⟩,
        ⟨fun hs => absurd hs (by decide), fun hs => absurd hs (ne_of_lt hlt)⟩⟩
    · rw [if_neg (by rw [heqq]; exact lt_irrefl p),
        if_neg (by rw [heqq]; exact lt_irrefl p)]
      refine ⟨⟨fun hs => absurd hs (by decide), fun hs => absurd hs
        (by rw [heqq]; exact lt_irrefl p)⟩,
        ⟨fun hs => absurd hs (by decide), fun hs => absurd hs
          (by rw [heqq]; exact lt_irrefl p)⟩,
        ⟨fun _ => heqq, fun _ => rfl⟩⟩
    · rw [if_pos hgt]
      refine ⟨⟨fun _ => hgt, fun _ => rfl⟩, ⟨fun hs => absurd hs (by decide),
        fun hs => absurd hs (not_lt_of_lt hgt)⟩,
        ⟨fun hs => absurd hs (by decide), fun hs => absurd hs
          (ne_of_gt hgt)⟩⟩

/-- C2 witness: with a cached previous rate of 50 and a new rate of 10 fetched
from the JSON archive source, the events are read then write and the arrow is
the down arrow. -/
theorem fetch_trend_arrow_witness :
    (fetch_cbr_rate envJsonArchiveWins "USD" goodDb).dbEvents =
      [DbEvent.getPreviousRate (pyUpper "USD")
        (goodDb.prevRate (pyUpper "USD")),
       DbEvent.saveRate (pyUpper "USD")
        (FetchResult.rate ⟨100, "2024-02-01", true, "↑"⟩)
        (FetchResult.date ⟨100, "2024-02-01", true, "↑"⟩)] ∧
    (goodDb.prevRate (pyUpper "USD") = none →
      FetchResult.change_arrow ⟨100, "2024-02-01", true, "↑"⟩ = "→") ∧
    (∀ p, goodDb.prevRate (pyUpper "USD") = some p →
      ((FetchResult.change_arrow ⟨100, "2024-02-01", true, "↑"⟩ = "↑"
        ↔ FetchResult.rate ⟨100, "2024-02-01", true, "↑"⟩ > p) ∧
       (FetchResult.change_arrow ⟨100, "2024-02-01", true, "↑"⟩ = "↓"
        ↔ FetchResult.rate ⟨100, "2024-02-01", true, "↑"⟩ < p) ∧
       (FetchResult.change_arrow ⟨100, "2024-02-01", true, "↑"⟩ = "→"
        ↔ FetchResult.rate ⟨100, "2024-02-01", true, "↑"⟩ = p))) :=
  fetch_trend_arrow envJsonArchiveWins "USD" goodDb
    ⟨100, "2024-02-01", true, "↑"⟩ rfl

/-- C3: fetch_cbr_rate raises the final RuntimeError exactly when all four
sources fall through without yielding the requested currency, and on the
scheduled path any fetch exception is swallowed (no message is delivered and
nothing propagates) while a success is handed to delivery. -/
theorem acquisition_failure_iff_all_exhausted (env : FetchEnv)
    (currency : String) (db : RateDb) (user_id : Nat) :
    ((fetch_cbr_rate env currency db).result
        = Except.error PyError.runtimeError ↔
      ∀ k, k < 4 → sourceOutcome env (pyUpper currency) db k = none) ∧
    (∀ e, (fetch_cbr_rate env currency db).result = Except.error e →
      send_daily_rate env user_id currency db = none) ∧
    (∀ res, (fetch_cbr_rate env currency db).result = Except.ok res →
      send_daily_rate env user_id currency db = some res) := by
  refine ⟨⟨?_, ?_⟩, ?_, ?_⟩
  · intro h
    rcases fetch_cases env currency db with
      ⟨k, hk, hprev, r, evs, hout, heq⟩ | ⟨hall, heq⟩
    · rw [heq] at h
      simp only at h
      exact absurd h.symm (Ne.symm (sourceOutcome_no_runtime hout))
    · exact hall
  · intro hall
    rcases fetch_cases env currency db with
      ⟨k, hk, hprev, r, evs, hout, heq⟩ | ⟨_, heq⟩
    · rw [hall k hk] at hout
      exact absurd hout (by simp)
    · rw [heq]
  · intro e he
    unfold send_daily_rate
    rw [he]
  · intro res hres
    unfold send_daily_rate
    rw [hres]

/-- C3 witness: when every attempt of every source fails, fetch_cbr_rate ends
in the RuntimeError and the scheduled path sends nothing. -/
theorem acquisition_failure_witness :
    send_daily_rate envAllFail 1 "USD" goodDb = none :=
  (acquisition_failure_iff_all_exhausted envAllFail "USD" goodDb 1).2.1
    PyError.runtimeError rfl

/-- C5: on every successful fetch_cbr_rate call, stale or fresh, the last
database interaction before the result is returned is the write of the newly
fetched rate, so the new observation is what the next trend comparison reads. -/
theorem save_rate_on_every_success (env : FetchEnv) (currency : String)
    (db : RateDb) (res : FetchResult)
    (h : (fetch_cbr_rate env currency db).result = Except.ok res) :
    (fetch_cbr_rate env currency db).dbEvents.getLast? =
      some (DbEvent.saveRate (pyUpper currency) res.rate res.date) := by
  obtain ⟨hev, _, _, _⟩ := fetch_ok_shape h
  rw [hev]
  rfl

/-- C5 witness: the stale JSON archive winner still ends with the save of the
new rate. -/
theorem save_rate_on_every_success_witness :
    (fetch_cbr_rate envJsonArchiveWins "USD" goodDb).dbEvents.getLast? =
      some (DbEvent.saveRate (pyUpper "USD")
        (FetchResult.rate ⟨100, "2024-02-01", true, "↑"⟩)
        (FetchResult.date ⟨100, "2024-02-01", true, "↑"⟩)) :=
  save_rate_on_every_success envJsonArchiveWins "USD" goodDb
    ⟨100, "2024-02-01", true, "↑"⟩ rfl

/-- C4 counterexample: the first attempt of the JSON today source returns a
well-formed payload lacking USD, its second and third attempts would return a
payload that yields a valid USD rate, and every other source fails; the claim
predicts that the absence is retried within source 1 and the rate obtained,
but fetch_cbr_rate advances immediately and ends in the RuntimeError after
consulting all four sources. -/
theorem retry_absent_currency_counterexample :
    (jsonBranch goodDb "USD" false (some jsonUSD)).isSome = true ∧
    (fetch_cbr_rate envAbsentThenPresent "USD" goodDb).result
      = Except.error PyError.runtimeError ∧
    (fetch_cbr_rate envAbsentThenPresent "USD" goodDb).sourcesTried
      = [1, 2, 3, 4] :=
  ⟨rfl, rfl, rfl⟩

/-- C4 amended: within each source fetch_cbr_rate makes up to three attempts,
stopping at the first success, and sleeps 1s, 2s, 4s after the successive
failed attempts (network error, timeout or malformed payload), including after
the third; a payload that parses but lacks the requested currency is not
retried: the remaining attempts of that source are never consulted and the
chain advances to the next source immediately. -/
theorem retry_within_source_behavior :
    (∀ (p : JsonPayload) (a2 a3 : Option JsonPayload),
      runSource [some p, a2, a3] = (some p, [])) ∧
    (∀ (p : JsonPayload) (a3 : Option JsonPayload),
      runSource [none, some p, a3] = (some p, [1])) ∧
    (∀ (p : JsonPayload),
      runSource [none, none, some p] = (some p, [1, 2])) ∧
    (∀ (extra : List (Option JsonPayload)),
      runSource ([none, none, none] ++ extra) = (none, [1, 2, 4])) ∧
    (∀ (env : FetchEnv) (currency : String) (db : RateDb) (d : JsonPayload)
      (a2 a3 : Option JsonPayload),
      fetch_cbr_rate
        ⟨[some d, a2, a3], env.jsonArchive, env.xmlToday, env.xmlArchive⟩
        currency db =
      fetch_cbr_rate
        ⟨[some d], env.jsonArchive, env.xmlToday, env.xmlArchive⟩
        currency db) :=
  ⟨fun _ _ _ => rfl, fun _ _ => rfl, fun _ => rfl, fun _ => rfl,
   fun _ _ _ _ _ _ => rfl⟩

/-! ## Helper lemmas about the scheduler -/

theorem filter_bne_then_beq (jobs : List SchedJob) (t : String) :
    List.filter (fun j => j.job_id == t)
      (List.filter (fun j => j.job_id != t) jobs) = [] := by
  rw [List.filter_filter]
  have : ∀ j : SchedJob, ((j.job_id == t) && (j.job_id != t)) = false := by
    intro j
    cases h : (j.job_id == t) <;> simp [bne, h]
  simp only [this, List.filter_false]

theorem filter_bne_idem (jobs : List SchedJob) (t : String) :
    List.filter (fun j => j.job_id != t)
      (List.filter (fun j => j.job_id != t) jobs)
      = List.filter (fun j => j.job_id != t) jobs := by
  rw [List.filter_filter]
  simp only [Bool.and_self]

theorem get_user_user_id {db : UserDb} {user_id : Nat} {u : UserRow}
    (h : get_user db user_id = some u) : u.user_id = user_id := by
  have hp := List.find?_some h
  simpa using hp

theorem qualifies_eq_not_guard {db : UserDb} {user_id : Nat} {u : UserRow}
    (h : get_user db user_id = some u) :
    qualifies db user_id =
      !(!u.notification_enabled || u.utc_hour.isNone || u.utc_minute.isNone
        || pyFalsyStr u.currency) := by
  unfold qualifies
  rw [h]
  cases h0 : u.notification_enabled <;>
    rcases h1 : u.utc_hour with _ | v1 <;>
      rcases h2 : u.utc_minute with _ | v2 <;>
        rcases h3 : u.currency with _ | c <;>
          simp [pyFalsyStr, h0, h1, h2, h3]

theorem count_add_job (A : List SchedJob) (j : SchedJob) (t : String)
    (hA : List.filter (fun x => x.job_id == t) A = [])
    (hj : j.job_id = t) :
    List.filter (fun x => x.job_id == t) (add_job_replace A j) = [j] := by
  unfold add_job_replace
  rw [hj, List.filter_append, List.filter_comm, hA]
  simp [hj]

theorem remove_add_job (A : List SchedJob) (j : SchedJob) (t : String)
    (hj : j.job_id = t) :
    List.filter (fun x => x.job_id != t) (add_job_replace A j)
      = List.filter (fun x => x.job_id != t) A := by
  unfold add_job_replace
  rw [hj, List.filter_append, filter_bne_idem]
  simp [hj]

theorem reschedule_of_get_user_none {db : UserDb} {user_id : Nat}
    (jobs : List SchedJob) (hu : get_user db user_id = none) :
    reschedule_for_user db user_id jobs
      = List.filter (fun j => j.job_id != "user_" ++ toString user_id) jobs := by
  unfold reschedule_for_user
  simp only [hu]

theorem reschedule_of_guard_true {db : UserDb} {user_id : Nat} {u : UserRow}
    (jobs : List SchedJob) (hu : get_user db user_id = some u)
    (hg : (!u.notification_enabled || u.utc_hour.isNone || u.utc_minute.isNone
      || pyFalsyStr u.currency) = true) :
    reschedule_for_user db user_id jobs
      = List.filter (fun j => j.job_id != "user_" ++ toString user_id) jobs := by
  unfold reschedule_for_user
  simp only [hu, hg, if_true]

theorem reschedule_of_guard_false {db : UserDb} {user_id : Nat} {u : UserRow}
    {h1 m1 : Nat} {c : String} (jobs : List SchedJob)
    (hu : get_user db user_id = some u)
    (hg : (!u.notification_enabled || u.utc_hour.isNone || u.utc_minute.isNone
      || pyFalsyStr u.currency) = false)
    (hh1 : u.utc_hour = some h1) (hm1 : u.utc_minute = some m1)
    (hc1 : u.currency = some c) :
    reschedule_for_user db user_id jobs
      = add_job_replace
          (List.filter (fun j => j.job_id != "user_" ++ toString user_id) jobs)
          ⟨"user_" ++ toString user_id, h1, m1, user_id, pyUpper c⟩ := by
  unfold reschedule_for_user
  simp only [hu, hg, Bool.false_eq_true, if_false]
  simp only [_add_job_for_user, hh1, hm1, hc1, get_user_user_id hu]

theorem guard_false_fields {u : UserRow}
    (hg : (!u.notification_enabled || u.utc_hour.isNone || u.utc_minute.isNone
      || pyFalsyStr u.currency) = false) :
    ∃ h1 m1 c, u.utc_hour = some h1 ∧ u.utc_minute = some m1
      ∧ u.currency = some c := by
  simp only [Bool.or_eq_false_iff] at hg
  obtain ⟨⟨⟨_, hh⟩, hm⟩, hc⟩ := hg
  rcases hh1 : u.utc_hour with _ | h1
  · rw [hh1] at hh; simp at hh
  rcases hm1 : u.utc_minute with _ | m1
  · rw [hm1] at hm; simp at hm
  rcases hc1 : u.currency with _ | c
  · rw [hc1] at hc; simp [pyFalsyStr] at hc
  exact ⟨h1, m1, c, rfl, rfl, rfl⟩

theorem reschedule_count (db : UserDb) (user_id : Nat)
    (jobs : List SchedJob) :
    countJobsFor user_id (reschedule_for_user db user_id jobs)
      = (if qualifies db user_id then 1 else 0) := by
  rcases hu : get_user db user_id with _ | u
  · have hq : qualifies db user_id = false := by unfold qualifies; rw [hu]
    rw [reschedule_of_get_user_none jobs hu, hq]
    unfold countJobsFor
    rw [filter_bne_then_beq]
    rfl
  · rw [qualifies_eq_not_guard hu]
    cases hg : (!u.notification_enabled || u.utc_hour.isNone
        || u.utc_minute.isNone || pyFalsyStr u.currency) with
    | true =>
        rw [reschedule_of_guard_true jobs hu hg]
        unfold countJobsFor
        rw [filter_bne_then_beq]
        rfl
    | false =>
        obtain ⟨h1, m1, c, hh1, hm1, hc1⟩ := guard_false_fields hg
        rw [reschedule_of_guard_false jobs hu hg hh1 hm1 hc1]
        unfold countJobsFor
        rw [count_add_job
          (List.filter (fun j => j.job_id != "user_" ++ toString user_id) jobs)
          ⟨"user_" ++ toString user_id, h1, m1, user_id, pyUpper c⟩
          ("user_" ++ toString user_id) (filter_bne_then_beq jobs _) rfl]
        rfl

theorem reschedule_idem (db : UserDb) (user_id : Nat)
    (jobs : List SchedJob) :
    reschedule_for_user db user_id (reschedule_for_user db user_id jobs)
      = reschedule_for_user db user_id jobs := by
  rcases hu : get_user db user_id with _ | u
  · rw [reschedule_of_get_user_none jobs hu,
      reschedule_of_get_user_none _ hu, filter_bne_idem]
  · cases hg : (!u.notification_enabled || u.utc_hour.isNone
        || u.utc_minute.isNone || pyFalsyStr u.currency) with
    | true =>
        rw [reschedule_of_guard_true jobs hu hg,
          reschedule_of_guard_true _ hu hg, filter_bne_idem]
    | false =>
        obtain ⟨h1, m1, c, hh1, hm1, hc1⟩ := guard_false_fields hg
        rw [reschedule_of_guard_false jobs hu hg hh1 hm1 hc1,
          reschedule_of_guard_false _ hu hg hh1 hm1 hc1,
          remove_add_job
            (List.filter (fun j => j.job_id != "user_" ++ toString user_id)
              jobs)
            ⟨"user_" ++ toString user_id, h1, m1, user_id, pyUpper c⟩
            ("user_" ++ toString user_id) rfl, filter_bne_idem]

theorem find?_map_update (l : List UserRow) (user_id : Nat)
    (f : UserRow → UserRow) (hf : ∀ v, (f v).user_id = v.user_id) :
    (l.map (fun v => if v.user_id == user_id then f v else v)).find?
        (fun v => v.user_id == user_id)
      = (l.find? (fun v => v.user_id == user_id)).map
          (fun v => if v.user_id == user_id then f v else v) := by
  induction l with
  | nil => rfl
  | cons a l ih =>
      simp only [List.map_cons, List.find?]
      have hfa : (((if (a.user_id == user_id) = true then f a else a).user_id
          == user_id)) = (a.user_id == user_id) := by
        by_cases h : (a.user_id == user_id) = true
        · rw [if_pos h, hf a]
        · rw [if_neg h]
      rw [hfa]
      cases h : (a.user_id == user_id) with
      | true =>
          have h2 : a.user_id = user_id := by simpa using h
          simp [h, h2]
      | false => exact ih

theorem disabled_rows {db : UserDb} {user_id : Nat} {u : UserRow}
    (hu : u ∈ (set_notifications_enabled db user_id false).users)
    (hid : u.user_id = user_id) : u.notification_enabled = false := by
  simp only [set_notifications_enabled, List.mem_map] at hu
  obtain ⟨a, _, hequ⟩ := hu
  by_cases h : (a.user_id == user_id) = true
  · rw [if_pos h] at hequ
    rw [← hequ]
  · rw [if_neg h] at hequ
    subst hequ
    exact absurd (by simpa using hid) h

theorem reschedule_after_disable (db : UserDb) (user_id : Nat)
    (jobs : List SchedJob) :
    countJobsFor user_id
      (reschedule_for_user (set_notifications_enabled db user_id false)
        user_id jobs) = 0 := by
  rw [reschedule_count]
  rcases hu : get_user (set_notifications_enabled db user_id false) user_id
    with _ | u
  · have hq : qualifies (set_notifications_enabled db user_id false) user_id
        = false := by
      unfold qualifies; rw [hu]
    rw [hq]; rfl
  · have hen : u.notification_enabled = false :=
      disabled_rows (List.mem_of_find?_eq_some hu) (get_user_user_id hu)
    have hq : qualifies (set_notifications_enabled db user_id false) user_id
        = false := by
      simp only [qualifies, hu, hen, Bool.false_and]
    rw [hq]; rfl

theorem mem_add_job_for_user {j : SchedJob} {u : UserRow}
    {js : List SchedJob} (h : j ∈ _add_job_for_user u js) :
    j ∈ js ∨ j.user_id = u.user_id := by
  unfold _add_job_for_user at h
  rcases hh : u.utc_hour with _ | h1 <;> rw [hh] at h
  · exact Or.inl h
  rcases hm : u.utc_minute with _ | m1 <;> rw [hm] at h
  · exact Or.inl h
  rcases hc : u.currency with _ | c <;> rw [hc] at h
  · exact Or.inl h
  unfold add_job_replace at h
  rcases List.mem_append.mp h with h1 | h1
  · exact Or.inl (List.mem_of_mem_filter h1)
  · rcases List.mem_singleton.mp h1 with rfl
    exact Or.inr rfl

theorem foldl_add_jobs_mem (rows : List UserRow) (acc : List SchedJob)
    (j : SchedJob)
    (h : j ∈ rows.foldl (fun js u => _add_job_for_user u js) acc) :
    j ∈ acc ∨ ∃ u ∈ rows, j.user_id = u.user_id := by
  induction rows generalizing acc with
  | nil => exact Or.inl h
  | cons a l ih =>
      rcases ih _ h with hacc | ⟨u, hu, he⟩
      · rcases mem_add_job_for_user hacc with h1 | h2
        · exact Or.inl h1
        · exact Or.inr ⟨a, List.mem_cons_self a l, h2⟩
      · exact Or.inr ⟨u, List.mem_cons_of_mem _ hu, he⟩

theorem reload_after_disable (db : UserDb) (user_id : Nat) :
    ∀ j ∈ reload_jobs (set_notifications_enabled db user_id false),
      j.user_id ≠ user_id := by
  intro j hj hid
  unfold reload_jobs at hj
  rcases foldl_add_jobs_mem _ _ _ hj with h | ⟨u, hu, he⟩
  · simp at h
  · unfold get_all_with_notifications at hu
    rw [List.mem_filter] at hu
    obtain ⟨hmem, hpred⟩ := hu
    have hen : u.notification_enabled = false :=
      disabled_rows hmem (by rw [← he, hid])
    rw [hen] at hpred
    simp at hpred

/-- C6: reschedule_for_user removes any existing trigger for the user and then
creates exactly one fresh trigger iff the settings qualify (enabled, currency
set and non-empty, both UTC fields set); it is idempotent, so a repeated call
leaves exactly one trigger for a qualifying user and zero otherwise, never
two; after disabling notifications a reschedule leaves no trigger and
reload_jobs builds no job for that user either. -/
theorem reschedule_trigger_invariants (db : UserDb) (user_id : Nat)
    (jobs : List SchedJob) :
    countJobsFor user_id (reschedule_for_user db user_id jobs)
      = (if qualifies db user_id then 1 else 0) ∧
    reschedule_for_user db user_id (reschedule_for_user db user_id jobs)
      = reschedule_for_user db user_id jobs ∧
    countJobsFor user_id
      (reschedule_for_user (set_notifications_enabled db user_id false)
        user_id jobs) = 0 ∧
    (∀ j ∈ reload_jobs (set_notifications_enabled db user_id false),
      j.user_id ≠ user_id) :=
  ⟨reschedule_count db user_id jobs, reschedule_idem db user_id jobs,
   reschedule_after_disable db user_id jobs, reload_after_disable db user_id⟩

/-- C6 witness: a fully configured enabled user 7 ends with exactly one
trigger after a reschedule, and with none after disabling. -/
theorem reschedule_trigger_invariants_witness :
    countJobsFor 7 (reschedule_for_user dbUser7 7 [])
      = (if qualifies dbUser7 7 then 1 else 0) ∧
    countJobsFor 7
      (reschedule_for_user (set_notifications_enabled dbUser7 7 false) 7 [])
      = 0 :=
  ⟨(reschedule_trigger_invariants dbUser7 7 []).1,
   (reschedule_trigger_invariants dbUser7 7 []).2.2.1⟩

/-! ## Helper lemmas about on_time_confirm -/

theorem any_of_get_user {db : UserDb} {user_id : Nat} {u : UserRow}
    (h : get_user db user_id = some u) :
    db.users.any (fun v => v.user_id == user_id) = true := by
  have hm : u ∈ db.users := List.mem_of_find?_eq_some h
  have hp := List.find?_some h
  exact List.any_eq_true.mpr ⟨u, hm, hp⟩

theorem get_user_set_notification_time {db : UserDb} {user_id : Nat}
    {u : UserRow} (h : get_user db user_id = some u)
    (lh lm uh um : Nat) (en : Bool) :
    get_user (set_notification_time db user_id lh lm uh um en) user_id
      = some { u with
          local_hour := some lh
          local_minute := some lm
          utc_hour := some uh
          utc_minute := some um
          notification_enabled := en } := by
  unfold set_notification_time _ensure_user_row
  rw [if_pos (any_of_get_user h)]
  unfold get_user
  rw [find?_map_update _ _
    (fun v => { v with
      local_hour := some lh
      local_minute := some lm
      utc_hour := some uh
      utc_minute := some um
      notification_enabled := en }) (fun v => rfl)]
  unfold get_user at h
  rw [h]
  simp only [Option.map_some']
  rw [if_pos (List.find?_some h)]

/-- C7: when a user with a stored timezone offset confirms a notification
time, the stored utc_hour and utc_minute represent the chosen local time
shifted by minus the offset, modulo 24 hours, the local fields store the
chosen time, and notifications are enabled. -/
theorem time_confirm_stores_utc_shift (db : UserDb)
    (user_id hour minute : Nat) (u : UserRow) (offset : Int)
    (hu : get_user db user_id = some u)
    (hoff : u.timezone_utc_offset_minutes = some offset) :
    ∃ u2, get_user (on_time_confirm db user_id hour minute) user_id = some u2
      ∧ u2.local_hour = some hour ∧ u2.local_minute = some minute
      ∧ u2.notification_enabled = true
      ∧ ∃ uh um, u2.utc_hour = some uh ∧ u2.utc_minute = some um
        ∧ uh < 24 ∧ um < 60
        ∧ ((uh : Int) * 60 + (um : Int)
            = (((hour : Int) * 60 + (minute : Int)) - offset) % (24 * 60)) := by
  simp only [on_time_confirm, hu, hoff]
  refine ⟨_, get_user_set_notification_time hu hour minute _ _ true,
    rfl, rfl, rfl,
    ((((hour : Int) * 60 + (minute : Int) - offset) % (24 * 60)) / 60).toNat,
    ((((hour : Int) * 60 + (minute : Int) - offset) % (24 * 60)) % 60).toNat,
    rfl, rfl, ?_, ?_, ?_⟩ <;>
  · have h0 : 0 ≤ ((hour : Int) * 60 + (minute : Int) - offset) % (24 * 60) :=
      Int.emod_nonneg _ (by norm_num)
    have h1 : ((hour : Int) * 60 + (minute : Int) - offset) % (24 * 60)
        < 24 * 60 := Int.emod_lt_of_pos _ (by norm_num)
    have h2 : 0 ≤ ((hour : Int) * 60 + (minute : Int) - offset) % (24 * 60)
        % 60 := Int.emod_nonneg _ (by norm_num)
    have h3 : ((hour : Int) * 60 + (minute : Int) - offset) % (24 * 60) % 60
        < 60 := Int.emod_lt_of_pos _ (by norm_num)
    have h4 : 60 * (((hour : Int) * 60 + (minute : Int) - offset) % (24 * 60)
          / 60)
        + ((hour : Int) * 60 + (minute : Int) - offset) % (24 * 60) % 60
        = ((hour : Int) * 60 + (minute : Int) - offset) % (24 * 60) :=
      Int.ediv_add_emod _ 60
    omega

/-- C7 witness: offset plus 180 minutes and local time 09:00 store
utc_hour 6 and utc_minute 0. -/
theorem time_confirm_stores_utc_shift_witness :
    (∃ u2, get_user (on_time_confirm dbUser1 1 9 0) 1 = some u2
      ∧ u2.local_hour = some 9 ∧ u2.local_minute = some 0
      ∧ u2.notification_enabled = true
      ∧ ∃ uh um, u2.utc_hour = some uh ∧ u2.utc_minute = some um
        ∧ uh < 24 ∧ um < 60
        ∧ ((uh : Int) * 60 + (um : Int)
            = (((9 : Int) * 60 + (0 : Int)) - 180) % (24 * 60))) ∧
    get_user (on_time_confirm dbUser1 1 9 0) 1
      = some ⟨1, some 180, some "USD", some 9, some 0, some 6, some 0, true⟩ :=
  ⟨time_confirm_stores_utc_shift dbUser1 1 9 0
    ⟨1, some 180, some "USD", none, none, none, none, false⟩ 180 rfl rfl,
   rfl⟩

/-! ## Rate normalization (C8) -/

/-- C8: the normalized rate is always value divided by nominal with an absent
or zero nominal treated as one (value 100 with nominal 10 gives 10, absent or
zero nominal gives the raw value), for both the JSON payload shape and the XML
payload shape, whose decimal comma is replaced by a dot before parsing. -/
theorem rate_normalization :
    (∀ (value : ℚ) (nominal : Option ℚ),
      normalizeRate value (nominal.getD 1) = value / specNominal nominal) ∧
    normalizeRate 100 10 = 10 ∧
    (∀ value : ℚ, normalizeRate value ((none : Option ℚ).getD 1) = value
      ∧ normalizeRate value ((some (0 : ℚ)).getD 1) = value) ∧
    replaceCommaDot "100,25" = "100.25" ∧
    jsonBranch emptyDb "USD" false
        (some ⟨"2024-02-01", [("USD", ⟨100, some 10⟩)]⟩)
      = some (Except.ok ⟨10, "2024-02-01", false, "→"⟩,
          [DbEvent.getPreviousRate "USD" none,
           DbEvent.saveRate "USD" 10 "2024-02-01"]) ∧
    xmlBranch emptyDb "USD" false
        (some ⟨some "01.02.2024", [⟨some "USD", some "10", some "100,00"⟩]⟩)
      = some (Except.ok ⟨10, "2024-02-01", false, "→"⟩,
          [DbEvent.getPreviousRate "USD" none,
           DbEvent.saveRate "USD" 10 "2024-02-01"]) := by
  refine ⟨?_, ?_, ?_, rfl, ?_, ?_⟩
  · intro v n
    rcases n with _ | n
    · simp [normalizeRate, specNominal]
    · by_cases hn : n = 0
      · subst hn
        simp [normalizeRate, specNominal]
      · simp [normalizeRate, specNominal, hn]
  · norm_num [normalizeRate]
  · intro v
    constructor
    · simp [normalizeRate]
    · simp [normalizeRate]
  · have hb : jsonBranch emptyDb "USD" false
        (some ⟨"2024-02-01", [("USD", ⟨100, some 10⟩)]⟩)
      = some (Except.ok ⟨normalizeRate 100 10, "2024-02-01", false, "→"⟩,
          [DbEvent.getPreviousRate "USD" none,
           DbEvent.saveRate "USD" (normalizeRate 100 10) "2024-02-01"]) := rfl
    rw [hb, show normalizeRate 100 10 = 10 from by norm_num [normalizeRate]]
  · have hb : xmlBranch emptyDb "USD" false
        (some ⟨some "01.02.2024", [⟨some "USD", some "10", some "100,00"⟩]⟩)
      = some (Except.ok
          ⟨normalizeRate ((100 : ℚ) + (0 : ℚ) / 10 ^ 2) 10,
            "2024-02-01", false, "→"⟩,
          [DbEvent.getPreviousRate "USD" none,
           DbEvent.saveRate "USD"
             (normalizeRate ((100 : ℚ) + (0 : ℚ) / 10 ^ 2) 10)
             "2024-02-01"]) := rfl
    rw [hb, show normalizeRate ((100 : ℚ) + (0 : ℚ) / 10 ^ 2) 10 = 10 from
      by norm_num [normalizeRate]]

/-! ## Helper lemmas about the geocode cache -/

theorem ramFresh_some {ram : RamCache} {key : String} {now : ℚ}
    {c : CityEntry} (h : ramFresh ram key now = some c) :
    ramLookup ram key = some c
      ∧ now - (c.updated_at : ℚ) < CACHE_TTL := by
  unfold ramFresh at h
  rcases hl : ramLookup ram key with _ | d
  · simp only [hl] at h
    exact Option.noConfusion h
  · simp only [hl] at h
    by_cases hf : now - (d.updated_at : ℚ) < CACHE_TTL
    · rw [if_pos hf] at h
      have hc := Option.some.inj h
      exact ⟨by rw [hc], hc ▸ hf⟩
    · rw [if_neg hf] at h
      simp at h

theorem ramLookup_insert (ram : RamCache) (key : String) (e : CityEntry) :
    ramLookup (ramInsert ram key e) key = some e := by
  unfold ramLookup ramInsert
  simp [List.lookup]

theorem geoFullLookup_ok_ram {city_key : String} {now : ℚ} {ram : RamCache}
    {db : GeoDb} {net : GeoNet} {evs : List GeoDbEvent} {la lo : ℚ}
    {off : Int}
    (h : (geoFullLookup city_key now ram db net evs).result
      = Except.ok (la, lo, off)) :
    ∃ ts, ramLookup (geoFullLookup city_key now ram db net evs).ram city_key
      = some ⟨la, lo, off, ts⟩ := by
  unfold geoFullLookup at h ⊢
  rcases hg : net.geocode with _ | lln
  · simp only [hg] at h
    simp at h
  · obtain ⟨lat, lon, name⟩ := lln
    simp only [hg] at h ⊢
    rcases ht : net.tzOffset with _ | offv
    · simp only [ht] at h
      simp at h
    · simp only [ht] at h ⊢
      by_cases hm : "cache_city" ∈ db.methods
      · rw [if_pos hm] at h ⊢
        simp only [Except.ok.injEq, Prod.mk.injEq] at h
        obtain ⟨h1, h2, h3⟩ := h
        subst h1
        subst h2
        subst h3
        exact ⟨pyInt now, ramLookup_insert _ _ _⟩
      · rw [if_neg hm] at h
        simp at h

theorem geo_ok_ram {city : String} {now : ℚ} {ram : RamCache} {db : GeoDb}
    {net : GeoNet} {la lo : ℚ} {off : Int}
    (h : (get_city_timezone city now ram db net).result
      = Except.ok (la, lo, off)) :
    ∃ ts, ramLookup (get_city_timezone city now ram db net).ram
      (pyLower city) = some ⟨la, lo, off, ts⟩ := by
  unfold get_city_timezone at h ⊢
  rcases hr : ramFresh ram (pyLower city) now with _ | c
  · simp only [hr] at h ⊢
    by_cases hm : "get_cached_city" ∈ db.methods
    · rw [if_pos hm] at h ⊢
      rcases hc : db.cached (pyLower city) with _ | quad
      · simp only [hc] at h ⊢
        exact geoFullLookup_ok_ram h
      · obtain ⟨lat, lon, offv, ts⟩ := quad
        simp only [hc] at h ⊢
        by_cases hf : now - (ts : ℚ) < CACHE_TTL
        · rw [if_pos hf] at h ⊢
          simp only [Except.ok.injEq, Prod.mk.injEq] at h
          obtain ⟨h1, h2, h3⟩ := h
          subst h1
          subst h2
          subst h3
          exact ⟨ts, ramLookup_insert _ _ _⟩
        · rw [if_neg hf] at h ⊢
          exact geoFullLookup_ok_ram h
    · rw [if_neg hm] at h
      simp at h
  · simp only [hr] at h ⊢
    simp only [Except.ok.injEq, Prod.mk.injEq] at h
    obtain ⟨h1, h2, h3⟩ := h
    refine ⟨c.updated_at, ?_⟩
    rw [(ramFresh_some hr).1, ← h1, ← h2, ← h3]

/-- C9: both cache tiers are keyed by the lower-cased city text with the 24
hour TTL and precede any network access: a fresh in-memory hit returns at once
with no database or network interaction, a fresh persistent hit returns with
no network interaction and backfills the in-memory tier, and after any
successful call a second call for the same city within the TTL makes no
network call, touches no database, and returns the identical latitude,
longitude and offset. -/
theorem geo_two_tier_cache (city : String) (now1 now2 : ℚ) (ram0 : RamCache)
    (db : GeoDb) (net1 net2 : GeoNet) (v : ℚ × ℚ × Int)
    (hdb : "get_cached_city" ∈ db.methods)
    (h1 : (get_city_timezone city now1 ram0 db net1).result = Except.ok v)
    (e : CityEntry)
    (he : ramLookup (get_city_timezone city now1 ram0 db net1).ram
      (pyLower city) = some e)
    (hfresh : now2 - (e.updated_at : ℚ) < CACHE_TTL) :
    get_city_timezone city now2
        (get_city_timezone city now1 ram0 db net1).ram db net2
      = ⟨Except.ok v, (get_city_timezone city now1 ram0 db net1).ram,
          [], 0⟩ ∧
    (∀ c, ramFresh ram0 (pyLower city) now1 = some c →
      get_city_timezone city now1 ram0 db net1
        = ⟨Except.ok (c.lat, c.lon, c.offset), ram0, [], 0⟩) ∧
    (∀ lat lon off ts, ramFresh ram0 (pyLower city) now1 = none →
      db.cached (pyLower city) = some (lat, lon, off, ts) →
      now1 - (ts : ℚ) < CACHE_TTL →
      get_city_timezone city now1 ram0 db net1
        = ⟨Except.ok (lat, lon, off),
            ramInsert ram0 (pyLower city) ⟨lat, lon, off, ts⟩,
            [GeoDbEvent.get_cached_city (pyLower city)
              (some (lat, lon, off, ts))], 0⟩) := by
  refine ⟨?_, ?_, ?_⟩
  · obtain ⟨la, lo, off⟩ := v
    obtain ⟨ts, hts⟩ := geo_ok_ram h1
    rw [he] at hts
    obtain rfl := Option.some.inj hts
    have hfresh2 : now2 - (ts : ℚ) < CACHE_TTL := hfresh
    have hrf : ramFresh (get_city_timezone city now1 ram0 db net1).ram
        (pyLower city) now2 = some ⟨la, lo, off, ts⟩ := by
      unfold ramFresh
      simp only [he]
      rw [if_pos hfresh2]
    conv_lhs => rw [get_city_timezone]
    simp only [hrf]
  · intro c hc
    unfold get_city_timezone
    simp only [hc]
  · intro lat lon off ts hnone hcache hf
    unfold get_city_timezone
    simp only [hnone]
    rw [if_pos hdb]
    simp only [hcache]
    rw [if_pos hf]

/-- C9 witness: a first call for Moscow resolves through the network and
caches, a second call one hundred seconds later with a dead network returns
the identical coordinates and offset with no network call and no database
interaction. -/
theorem geo_two_tier_cache_witness :
    get_city_timezone "Moscow" 100
        (get_city_timezone "Moscow" 0 [] geoDbEmpty geoNetOk).ram
        geoDbEmpty geoNetFail
      = ⟨Except.ok (1, 2, 180),
          (get_city_timezone "Moscow" 0 [] geoDbEmpty geoNetOk).ram,
          [], 0⟩ :=
  (geo_two_tier_cache "Moscow" 0 100 [] geoDbEmpty geoNetOk geoNetFail
    (1, 2, 180) (by decide) rfl ⟨1, 2, 180, 0⟩ rfl
    (by norm_num [CACHE_TTL])).1

/-! ## Missing Database methods (C10) -/

/-- C10: the Database class of db.py defines none of get_previous_rate,
save_rate, get_cached_city or cache_city; every branch of fetch_cbr_rate that
finds the requested currency reaches the shared read-then-write tail, which
with this Database raises AttributeError, so fetch_cbr_rate can never return
a result normally; get_city_timezone likewise raises AttributeError as soon
as it consults the persistent cache tier. -/
theorem missing_database_methods :
    ("get_previous_rate" ∉ databaseMethods ∧ "save_rate" ∉ databaseMethods ∧
     "get_cached_city" ∉ databaseMethods ∧ "cache_city" ∉ databaseMethods) ∧
    (∀ (env : FetchEnv) (currency : String) (res : FetchResult),
      (fetch_cbr_rate env currency cbrDb).result ≠ Except.ok res) ∧
    (∀ (key : String) (rate : ℚ) (date_str : String) (st : Bool),
      winBranch cbrDb key rate date_str st
        = (Except.error PyError.attributeError, [])) ∧
    (∀ (city : String) (now : ℚ) (net : GeoNet),
      (get_city_timezone city now [] cbrGeoDb net).result
        = Except.error PyError.attributeError) := by
  refine ⟨by decide, ?_, ?_, ?_⟩
  · intro env currency res h
    obtain ⟨_, _, hm, _⟩ := fetch_ok_shape h
    exact absurd hm (by decide)
  · intro key rate date_str st
    unfold winBranch
    rw [if_neg (by decide)]
  · intro city now net
    rfl

/-- C10 witness: with the Database of this repository, a fetch over any
environment cannot end in a returned result. -/
theorem missing_database_methods_witness :
    (fetch_cbr_rate envAllFail "USD" cbrDb).result
      ≠ Except.ok ⟨100, "2024-02-01", false, "→"⟩ :=
  missing_database_methods.2.1 envAllFail "USD"
    ⟨100, "2024-02-01", false, "→"⟩

end UsdRateBot
